import Mathlib

/-!
# godns: the update loop of a dynamic-DNS agent

A shallow embedding of `godns.go`.  Go strings are modelled as lists of
characters (`Str`), the process globals as a record (`Globals`) threaded
through every function, and the effects of a function (provider calls, log
lines, sleeps, process exit, writes to `latestIp`) as a list of `Event`s in
program order.  The provider client (`GetDomain`, `getSubDomain`,
`UpdateIpRecord`) and the network are parameters.
-/

namespace GoDns

/-! ## Strings -/

/-- A Go string, as its sequence of characters. -/
abbrev Str := List Char

/-- The Go predicate `unicode.IsSpace`, on the code point of a character. -/
def isSpace (c : Char) : Bool :=
  let n := c.toNat
  n == 9 || n == 10 || n == 11 || n == 12 || n == 13 || n == 32 ||
  n == 0x85 || n == 0xA0 || n == 0x1680 || (0x2000 ≤ n && n ≤ 0x200A) ||
  n == 0x2028 || n == 0x2029 || n == 0x202F || n == 0x205F || n == 0x3000

/-- The Go function `strings.TrimSpace`: leading and trailing white space removed. -/
def TrimSpace (s : Str) : Str :=
  ((s.dropWhile isSpace).reverse.dropWhile isSpace).reverse

/-- The Go call `strings.Split(s, ",")`: the pieces of `s` between commas; an
input without comma (the empty string included) is a single piece. -/
def Split : Str → List Str
  | [] => [[]]
  | c :: cs =>
    if c = ',' then [] :: Split cs
    else
      match Split cs with
      | [] => [[c]]
      | p :: ps => (c :: p) :: ps

/-- The characters of the class in the regular expression `[;$#^&]`. -/
def disallowed : List Char := [';', '$', '#', '^', '&']

/-- The call `regexp.MustCompile("[;$#^&]").MatchString(s)`: some character of
`s` belongs to the class. -/
def regexMatch (s : Str) : Bool :=
  s.any (fun c => disallowed.contains c)

/-! ## Data model -/

/-- The record `Settings` read from the configuration file. -/
structure Settings where
  ApiId : Int
  ApiToken : Str
  Domain : Str
  SubDomains : Str
  IpFetchUrl : Str
  DnsCheckSecond : Int

/-- The package-level variables of `godns.go` that the loop reads and writes. -/
structure Globals where
  latestIp : Str
  dnsCheckInterval : Int
  panicCount : Int
  Domain : Str
  DomainId : Int
  SubDomainArr : List Str
  SubDomainIdArr : List Str

/-- The constant `PANIC_MAX`. -/
def PANIC_MAX : Int := 5

/-- The constant `time.Second`, in nanoseconds. -/
def Second : Int := 1000000000

/-- The globals as Go initialises them before `main` runs. -/
def initGlobals : Globals :=
  { latestIp := [], dnsCheckInterval := 300 * Second, panicCount := 0,
    Domain := [], DomainId := 0, SubDomainArr := [], SubDomainIdArr := [] }

/-- The lines written with `log.Println` and `log.Printf`. -/
inductive LogMsg where
  | intervalRange
  | yourIp (ip : Str)
  | version
  | domainNotResolved (domain : Str)
  | multiSubDomains
  | notInList (subDomain : Str)
  | stat (subDomain ip : Str)
  | fetchError (err : Str)
  | ipNotChange
  | localIp (ip : Str)
  | updateError (subDomain err : Str)
  | updateSuccess (subDomain : Str)
  | recovered
  | gotPanic (panicCount : Int)
  deriving DecidableEq, Repr

/-- The observable effects, in program order. -/
inductive Event where
  | usage
  | getApiVersion
  | getDomain (name : Str)
  | getSubDomain (domainId : Int) (label : Str)
  | updateIpRecord (domainId : Int) (subId label ip : Str)
  | setLatestIp (ip : Str)
  | log (msg : LogMsg)
  | sleep (ns : Int)
  | exit (code : Int)
  | spawn
  deriving DecidableEq, Repr

/-- The provider client as `checkDomain` uses it: `GetDomain` answers `-1` for a
domain it does not know, `getSubDomain` answers the record id and the recorded
address, both empty for a label it does not know. -/
structure Provider where
  GetDomain : Str → Int
  getSubDomain : Int → Str → Str × Str

/-! ## checkDomain -/

/-- The loop `for _, v := range SubDomainArr` of `checkDomain`: the trace it
leaves and the value of `SubDomainIdArr` at its end, from the pieces still to
visit and the current `SubDomainIdArr`. -/
def checkSubDomains (P : Provider) (domain : Str) (domainId : Int) :
    List Str → List Str → List Event × List Str
  | [], ids => ([], ids)
  | v :: rest, ids =>
    let v := TrimSpace v
    if v.length ≠ 0 then
      let r := P.getSubDomain domainId v
      let subDomain := v ++ '.' :: domain
      if r.1 = [] ∨ r.2 = [] then
        let k := checkSubDomains P domain domainId rest ids
        (Event.getSubDomain domainId v :: Event.log (LogMsg.notInList subDomain) :: k.1, k.2)
      else
        let k := checkSubDomains P domain domainId rest (ids ++ [r.1])
        (Event.getSubDomain domainId v :: Event.log (LogMsg.stat subDomain r.2) :: k.1, k.2)
    else checkSubDomains P domain domainId rest ids

/-- The function `checkDomain`: its trace, and the globals it leaves, `none`
when it ends the process with `os.Exit`. -/
def checkDomain (cfg : Settings) (P : Provider) (g : Globals) :
    List Event × Option Globals :=
  let domain := TrimSpace cfg.Domain
  let domainId := P.GetDomain domain
  if domainId = -1 then
    ([Event.getDomain domain, Event.log (LogMsg.domainNotResolved domain), Event.exit 0], none)
  else if regexMatch cfg.SubDomains then
    ([Event.getDomain domain, Event.log LogMsg.multiSubDomains, Event.exit 1], none)
  else
    let arr := Split cfg.SubDomains
    let k := checkSubDomains P domain domainId arr g.SubDomainIdArr
    (Event.getDomain domain :: k.1,
      some { g with Domain := domain, DomainId := domainId,
                    SubDomainArr := arr, SubDomainIdArr := k.2 })

/-- The labels of the `getSubDomain` calls of a trace, in order. -/
def lookedUp : List Event → List Str
  | [] => []
  | Event.getSubDomain _ l :: es => l :: lookedUp es
  | _ :: es => lookedUp es

/-! ## Address discovery -/

/-- The outcome of `http.Get(url)`: a transport error, or a response with its
status code and the bytes `ioutil.ReadAll` obtained from its body. -/
inductive HttpGet where
  | error (err : Str)
  | response (status : Nat) (body : Str)
  deriving DecidableEq, Repr

/-- One entry of `net.InterfaceAddrs()`: whether it is a `*net.IPNet`, whether
its address is a loopback address, whether `To4()` is non-nil, and its text. -/
structure Addr where
  isIPNet : Bool
  isLoopback : Bool
  isV4 : Bool
  text : Str

/-- The network as one discovery attempt sees it. An error is `some` message,
`none` stands for the Go value `nil`. -/
structure Net where
  httpGet : Str → HttpGet
  InterfaceAddrs : List Addr × Option Str

/-- The function `getExternalIp`: the returned string and error. -/
def getExternalIp (net : Net) (url : Str) : Str × Option Str :=
  match net.httpGet url with
  | HttpGet.error err => ([], some err)
  | HttpGet.response _ body => (body, none)

/-- The `for _, a := range addrs` loop of `getInternalIp`. -/
def firstUsable : List Addr → Option Str
  | [] => none
  | a :: rest =>
    if a.isIPNet && !a.isLoopback then
      if a.isV4 then some a.text else firstUsable rest
    else firstUsable rest

/-- The function `getInternalIp`: the returned string and error. -/
def getInternalIp (net : Net) : Str × Option Str :=
  match net.InterfaceAddrs.2 with
  | some err => ([], some err)
  | none =>
    match firstUsable net.InterfaceAddrs.1 with
    | some ip => (ip, none)
    | none => ([], some "not connect any network".toList)

/-- The function `fetchIpAddr`, over the network as each successive attempt
finds it: the trace and the returned address, `none` when every attempt of
the list failed (the loop is then still retrying). -/
def fetchIpAddr (resolveInternal : Bool) (cfg : Settings) :
    List Net → List Event × Option Str
  | [] => ([], none)
  | net :: rest =>
    let r := if resolveInternal then getInternalIp net else getExternalIp net cfg.IpFetchUrl
    match r.2 with
    | some err =>
      let k := fetchIpAddr resolveInternal cfg rest
      (Event.log (LogMsg.fetchError err) :: Event.sleep Second :: k.1, k.2)
    | none => ([], some r.1)

/-! ## The check interval -/

/-- A Go `int64` product: the mathematical value reduced to the signed 64-bit range. -/
def wrapInt64 (x : Int) : Int :=
  (x + 2 ^ 63) % 2 ^ 64 - 2 ^ 63

/-- The lines of `main` that set `dnsCheckInterval` from the configuration:
the trace, and the globals, `none` when the process ends with `os.Exit`. -/
def mainCheckInterval (cfg : Settings) (g : Globals) : List Event × Option Globals :=
  if cfg.DnsCheckSecond > 0 then
    if cfg.DnsCheckSecond < 300 then
      ([Event.log LogMsg.intervalRange, Event.exit 0], none)
    else
      ([], some { g with dnsCheckInterval := wrapInt64 (cfg.DnsCheckSecond * Second) })
  else ([], some g)

/-! ## dnsUpdateLoop -/

/-- What a call of `UpdateIpRecord` does: it returns `nil`, returns an error,
or fails unexpectedly (a panic). -/
inductive UpdateResult where
  | ok
  | err (msg : Str)
  | panic
  deriving DecidableEq, Repr

/-- What one cycle of the loop receives from outside: the address
`fetchIpAddr` returns, and the behaviour of `UpdateIpRecord` during the cycle. -/
structure CycleInput where
  localIp : Str
  UpdateIpRecord : Int → Str → Str → Str → UpdateResult

/-- The loop `for i, subId := range SubDomainIdArr`, from index `i` on: the
trace, and whether the loop was left by a panic (an unexpected failure of
`UpdateIpRecord`, or `SubDomainArr[i]` out of range). -/
def updateTargets (g : Globals) (inp : CycleInput) : Nat → List Str → List Event × Bool
  | _, [] => ([], false)
  | i, subId :: rest =>
    match g.SubDomainArr[i]? with
    | none => ([], true)
    | some label =>
      let subDomain := label ++ '.' :: g.Domain
      let call := Event.updateIpRecord g.DomainId subId label inp.localIp
      match inp.UpdateIpRecord g.DomainId subId label inp.localIp with
      | UpdateResult.panic => ([call], true)
      | UpdateResult.err msg =>
        let k := updateTargets g inp (i + 1) rest
        (call :: Event.log (LogMsg.updateError subDomain msg) :: k.1, k.2)
      | UpdateResult.ok =>
        let k := updateTargets g inp (i + 1) rest
        (call :: Event.log (LogMsg.updateSuccess subDomain) :: k.1, k.2)

/-- One iteration of the `for` loop of `dnsUpdateLoop`: the globals after it,
its trace, and whether it was left by a panic. -/
def cycle (g : Globals) (inp : CycleInput) : Globals × List Event × Bool :=
  if inp.localIp = g.latestIp then
    (g, [Event.log LogMsg.ipNotChange, Event.sleep g.dnsCheckInterval], false)
  else
    let g1 := { g with latestIp := inp.localIp }
    let k := updateTargets g1 inp 0 g1.SubDomainIdArr
    if k.2 then
      (g1, Event.setLatestIp inp.localIp :: Event.log (LogMsg.localIp inp.localIp) :: k.1, true)
    else
      (g1, Event.setLatestIp inp.localIp :: Event.log (LogMsg.localIp inp.localIp) ::
        (k.1 ++ [Event.sleep g1.dnsCheckInterval]), false)

/-- The deferred function of `dnsUpdateLoop`, run once a panic is recovered:
the globals, the trace, and whether a new loop instance is started. -/
def recoverPanic (g : Globals) : Globals × List Event × Bool :=
  let g1 := { g with panicCount := g.panicCount + 1 }
  if g1.panicCount < PANIC_MAX then
    (g1, [Event.log LogMsg.recovered, Event.log (LogMsg.gotPanic g1.panicCount),
          Event.spawn], true)
  else (g1, [Event.log LogMsg.recovered], false)

/-- The function `dnsUpdateLoop` in a process that stays alive, over the inputs
of its successive cycles: the final globals and one trace per executed cycle.
A cycle left by a panic runs the deferred function; the loop instance it starts
with `go dnsUpdateLoop` takes over the remaining inputs, and when none is
started no further cycle is executed. The cycles of the first call alone are
those of `dnsUpdateLoopCall`. -/
def dnsUpdateLoop : Globals → List CycleInput → Globals × List (List Event)
  | g, [] => (g, [])
  | g, inp :: rest =>
    let c := cycle g inp
    if c.2.2 then
      let r := recoverPanic c.1
      if r.2.2 then
        let k := dnsUpdateLoop r.1 rest
        (k.1, (c.2.1 ++ r.2.1) :: k.2)
      else (r.1, [c.2.1 ++ r.2.1])
    else
      let k := dnsUpdateLoop c.1 rest
      (k.1, c.2.1 :: k.2)

/-- One call of `dnsUpdateLoop`, from its entry to its return: the cycles run
until one is left by a panic; the deferred function then recovers, counts, and
starts the new goroutine if the count allows, and the call returns. The final
globals and one trace per cycle of this call. -/
def dnsUpdateLoopCall : Globals → List CycleInput → Globals × List (List Event)
  | g, [] => (g, [])
  | g, inp :: rest =>
    let c := cycle g inp
    if c.2.2 then
      let r := recoverPanic c.1
      (r.1, [c.2.1 ++ r.2.1])
    else
      let k := dnsUpdateLoopCall c.1 rest
      (k.1, c.2.1 :: k.2)

/-- The function `main` after `flag.Parse()`, for the flags `-help`, `-ip` and
`-i`: the trace up to the start of the loop, and the traces of the cycles of
its call of `dnsUpdateLoop`. That call is the last statement of `main`: when it
returns, after a recovered panic, `main` returns and the process ends, so the
cycles of the process are those of this one call. The attempts of
`fetchIpAddr` in the `-ip` mode find the network as the list `nets` gives it. -/
def main (optHelp optGetIp resolveInternal : Bool) (cfg : Settings) (P : Provider)
    (nets : List Net) (inputs : List CycleInput) : List Event × List (List Event) :=
  if optHelp then ([Event.usage], [])
  else
    match mainCheckInterval cfg initGlobals with
    | (t1, none) => (t1, [])
    | (t1, some g1) =>
      if optGetIp then
        match fetchIpAddr resolveInternal cfg nets with
        | (t2, some ip) => (t1 ++ t2 ++ [Event.log (LogMsg.yourIp ip), Event.exit 0], [])
        | (t2, none) => (t1 ++ t2, [])
      else
        match checkDomain cfg P g1 with
        | (t2, none) => (t1 ++ Event.getApiVersion :: Event.log LogMsg.version :: t2, [])
        | (t2, some g2) =>
          (t1 ++ Event.getApiVersion :: Event.log LogMsg.version :: t2,
            (dnsUpdateLoopCall g2 inputs).2)

/-- Whether an event is a call of `UpdateIpRecord`. -/
def isUpdate : Event → Bool
  | Event.updateIpRecord _ _ _ _ => true
  | _ => false

/-- The `UpdateIpRecord` calls of a trace, in order. -/
def updateCalls (tr : List Event) : List Event :=
  tr.filter isUpdate

/-! ## Evaluation on the scenario of two subdomains -/

/-- A provider that knows the domain `example.com` (id 7) and its subdomain
`home` (record 10, address 9.9.9.9), and nothing else. -/
def homeProvider : Provider :=
  { GetDomain := fun d => if d = "example.com".toList then 7 else -1,
    getSubDomain := fun _ l =>
      if l = "home".toList then ("10".toList, "9.9.9.9".toList) else ([], []) }

/-- A configuration for the domain `example.com` with the given subdomain string. -/
def exampleCfg (subs : String) (secs : Int) : Settings :=
  { ApiId := 1, ApiToken := "t".toList, Domain := "example.com".toList,
    SubDomains := subs.toList, IpFetchUrl := "http://ip.example/raw".toList,
    DnsCheckSecond := secs }

/-- A cycle input: the discovered address, every update call succeeding. -/
def okInput (ip : String) : CycleInput :=
  { localIp := ip.toList, UpdateIpRecord := fun _ _ _ _ => UpdateResult.ok }

/-- A cycle input: the discovered address, every update call returning an error. -/
def errInput (ip : String) : CycleInput :=
  { localIp := ip.toList, UpdateIpRecord := fun _ _ _ _ => UpdateResult.err "fail".toList }

/-- A cycle input: the discovered address, every update call panicking. -/
def panicInput (ip : String) : CycleInput :=
  { localIp := ip.toList, UpdateIpRecord := fun _ _ _ _ => UpdateResult.panic }

/-- The globals after `checkDomain` from the initial globals (the initial
globals again when the process exits). -/
def resolved (cfg : Settings) (P : Provider) : Globals :=
  ((checkDomain cfg P initGlobals).2).getD initGlobals

/-- The value of `latestIp` a cycle starts from: the initial one for the first
cycle, the address discovered by the cycle before for every other. -/
def prevAddress (g : Globals) (inputs : List CycleInput) (k : Nat) : Str :=
  if k = 0 then g.latestIp
  else ((inputs.map CycleInput.localIp)[k - 1]?).getD g.latestIp

/-! ## Notions used in the statements, and example data -/

/-- A cycle ended by a recovered panic: its trace holds the line of the
deferred function. -/
def failed (tr : List Event) : Bool :=
  decide (Event.log LogMsg.recovered ∈ tr)

/-- A cycle after which a new loop instance was started. -/
def restarted (tr : List Event) : Bool :=
  decide (Event.spawn ∈ tr)

/-- A provider that knows the domain `example.com` (id 7) and its subdomains
`home` (record 10) and `www` (record 11), and nothing else. -/
def twoProvider : Provider :=
  { GetDomain := fun d => if d = "example.com".toList then 7 else -1,
    getSubDomain := fun _ l =>
      if l = "home".toList then ("10".toList, "9.9.9.9".toList)
      else if l = "www".toList then ("11".toList, "9.9.9.9".toList)
      else ([], []) }

/-- The candidate labels in the words of the specification: the pieces of the
comma-split string, each trimmed, the empty ones dropped, in input order. -/
def candidateLabels (raw : Str) : List Str :=
  ((Split raw).map TrimSpace).filter (fun v => decide (v ≠ []))

/-- The record ids the provider has for a list of labels, in the order of the
labels; a label without id or without recorded address gives none. -/
def resolvedIds (P : Provider) (domainId : Int) (labels : List Str) : List Str :=
  labels.filterMap (fun l =>
    if (P.getSubDomain domainId l).1 = [] ∨ (P.getSubDomain domainId l).2 = [] then none
    else some (P.getSubDomain domainId l).1)

/-- Whether an event is a call of the provider client. -/
def isProviderCall : Event → Bool
  | Event.getApiVersion => true
  | Event.getDomain _ => true
  | Event.getSubDomain _ _ => true
  | Event.updateIpRecord _ _ _ _ => true
  | _ => false

/-- Whether an event is the end of the process. -/
def isExit : Event → Bool
  | Event.exit _ => true
  | _ => false

/-- The provider calls of a trace that come before its first exit. -/
def callsBeforeExit (tr : List Event) : List Event :=
  (tr.takeWhile (fun e => !isExit e)).filter isProviderCall

/-- A network whose fetch URL answers with the given status and body. -/
def answering (status : Nat) (body : String) : Net :=
  { httpGet := fun _ => HttpGet.response status body.toList,
    InterfaceAddrs := ([], none) }

/-- A network on which `http.Get` fails. -/
def unreachable : Net :=
  { httpGet := fun _ => HttpGet.error "timeout".toList,
    InterfaceAddrs := ([], none) }

/-- The pieces joined again with commas. -/
def joinComma : List Str → Str
  | [] => []
  | [p] => p
  | p :: q :: r => p ++ ',' :: joinComma (q :: r)

/-! ## Lemmas on one cycle -/

theorem updateCalls_append (a b : List Event) :
    updateCalls (a ++ b) = updateCalls a ++ updateCalls b := by
  simp [updateCalls]

theorem cycle_latestIp (g : Globals) (inp : CycleInput) :
    (cycle g inp).1.latestIp = inp.localIp := by
  unfold cycle
  by_cases h : inp.localIp = g.latestIp
  · simp [h]
  · simp only [h, if_false]
    split <;> rfl

theorem cycle_same (g : Globals) (inp : CycleInput) (h : inp.localIp = g.latestIp) :
    cycle g inp = (g, [Event.log LogMsg.ipNotChange, Event.sleep g.dnsCheckInterval], false) := by
  unfold cycle
  simp [h]

theorem recoverPanic_latestIp (g : Globals) :
    (recoverPanic g).1.latestIp = g.latestIp := by
  unfold recoverPanic
  simp only
  split <;> rfl

theorem updateCalls_recoverPanic (g : Globals) :
    updateCalls (recoverPanic g).2.1 = [] := by
  unfold recoverPanic
  simp only
  split <;> simp [updateCalls, isUpdate]

/-- What the head cycle of a run leaves: its trace, with the trace of the
deferred function when it panicked. -/
theorem dnsUpdateLoop_head (g : Globals) (inp : CycleInput) (rest : List CycleInput)
    (tr : List Event) (h : (dnsUpdateLoop g (inp :: rest)).2[0]? = some tr) :
    updateCalls tr = updateCalls (cycle g inp).2.1 := by
  unfold dnsUpdateLoop at h
  simp only at h
  split at h
  · split at h <;>
      · simp only [List.getElem?_cons_zero, Option.some.injEq] at h
        subst h
        rw [updateCalls_append, updateCalls_recoverPanic, List.append_nil]
  · simp only [List.getElem?_cons_zero, Option.some.injEq] at h
    subst h
    rfl

/-- The later cycles of a run are the cycles of a run from globals whose
`latestIp` is the address the head cycle discovered. -/
theorem dnsUpdateLoop_tail (g : Globals) (inp : CycleInput) (rest : List CycleInput)
    (k : Nat) (tr : List Event)
    (h : (dnsUpdateLoop g (inp :: rest)).2[k + 1]? = some tr) :
    ∃ g1 : Globals, g1.latestIp = inp.localIp ∧ (dnsUpdateLoop g1 rest).2[k]? = some tr := by
  unfold dnsUpdateLoop at h
  simp only at h
  split at h
  · split at h
    · simp only [List.getElem?_cons_succ] at h
      exact ⟨_, by rw [recoverPanic_latestIp, cycle_latestIp], h⟩
    · simp at h
  · simp only [List.getElem?_cons_succ] at h
    exact ⟨_, cycle_latestIp g inp, h⟩

theorem prevAddress_succ (g g1 : Globals) (inp : CycleInput) (rest : List CycleInput)
    (k : Nat) (h1 : g1.latestIp = inp.localIp) (hk : k < rest.length) :
    prevAddress g (inp :: rest) (k + 1) = prevAddress g1 rest k := by
  unfold prevAddress
  cases k with
  | zero => simp [h1]
  | succ j =>
    have hj : j < rest.length := by omega
    simp [List.getElem?_eq_getElem hj]

/-- A cycle of a run whose address is the one `latestIp` holds when it starts
issues no update call. -/
theorem loop_same_address_no_calls (g : Globals) (inputs : List CycleInput)
    (k : Nat) (tr : List Event) (inp : CycleInput)
    (htr : (dnsUpdateLoop g inputs).2[k]? = some tr) (hinp : inputs[k]? = some inp)
    (heq : inp.localIp = prevAddress g inputs k) : updateCalls tr = [] := by
  induction inputs generalizing g k with
  | nil => simp at hinp
  | cons inp0 rest ih =>
    cases k with
    | zero =>
      simp only [List.getElem?_cons_zero, Option.some.injEq] at hinp
      subst hinp
      rw [dnsUpdateLoop_head g inp0 rest tr htr]
      have hp : prevAddress g (inp0 :: rest) 0 = g.latestIp := by simp [prevAddress]
      rw [hp] at heq
      rw [cycle_same g inp0 heq]
      simp [updateCalls, isUpdate]
    | succ j =>
      simp only [List.getElem?_cons_succ] at hinp
      obtain ⟨g1, h1, h2⟩ := dnsUpdateLoop_tail g inp0 rest j tr htr
      have hj : j < rest.length := by
        by_contra hcon
        rw [List.getElem?_eq_none (by omega)] at hinp
        cases hinp
      rw [prevAddress_succ g g1 inp0 rest j h1 hj] at heq
      exact ih g1 j h2 hinp heq

/-- Claim C1. In a run of `dnsUpdateLoop` over any sequence of discovered
addresses, from any initial `latestIp` (the unset one is the empty string), a
cycle issues `UpdateIpRecord` calls only if its address differs from the one
the cycle before accepted (the initial `latestIp` for the first cycle): a cycle
whose address equals it issues no update call. -/
theorem dnsUpdateLoop_updates_only_on_change (g : Globals) (inputs : List CycleInput)
    (k : Nat) (tr : List Event) (inp : CycleInput)
    (htr : (dnsUpdateLoop g inputs).2[k]? = some tr) (hinp : inputs[k]? = some inp) :
    (updateCalls tr ≠ [] → inp.localIp ≠ prevAddress g inputs k) ∧
    (inp.localIp = prevAddress g inputs k → updateCalls tr = []) :=
  ⟨fun hne heq => hne (loop_same_address_no_calls g inputs k tr inp htr hinp heq),
   loop_same_address_no_calls g inputs k tr inp htr hinp⟩

/-- A witness of C1 on the run of three cycles with the addresses 1.2.3.4,
1.2.3.4 and 1.2.3.5: the second cycle repeats the address and issues no call. -/
theorem dnsUpdateLoop_updates_only_on_change_witness :
    (dnsUpdateLoop (resolved (exampleCfg "home,nas" 0) homeProvider)
        [okInput "1.2.3.4", okInput "1.2.3.4", okInput "1.2.3.5"]).2[1]?
      = some [Event.log LogMsg.ipNotChange, Event.sleep (300 * Second)] ∧
    ((updateCalls [Event.log LogMsg.ipNotChange, Event.sleep (300 * Second)] ≠ [] →
        (okInput "1.2.3.4").localIp ≠
          prevAddress (resolved (exampleCfg "home,nas" 0) homeProvider)
            [okInput "1.2.3.4", okInput "1.2.3.4", okInput "1.2.3.5"] 1) ∧
      ((okInput "1.2.3.4").localIp =
          prevAddress (resolved (exampleCfg "home,nas" 0) homeProvider)
            [okInput "1.2.3.4", okInput "1.2.3.4", okInput "1.2.3.5"] 1 →
        updateCalls [Event.log LogMsg.ipNotChange, Event.sleep (300 * Second)] = [])) :=
  ⟨by decide,
   dnsUpdateLoop_updates_only_on_change (resolved (exampleCfg "home,nas" 0) homeProvider)
     [okInput "1.2.3.4", okInput "1.2.3.4", okInput "1.2.3.5"] 1
     [Event.log LogMsg.ipNotChange, Event.sleep (300 * Second)] (okInput "1.2.3.4")
     (by decide) rfl⟩

/-- The end-to-end scenario: subdomains `home,nas`, the provider knows `home`
(record 10) only; the cycles discover 1.2.3.4, 1.2.3.4, 1.2.3.5. The update
calls of the three cycles are one call for `home`, none, one call for `home`. -/
theorem scenario_home_nas :
    (dnsUpdateLoop (resolved (exampleCfg "home,nas" 0) homeProvider)
        [okInput "1.2.3.4", okInput "1.2.3.4", okInput "1.2.3.5"]).2.map updateCalls
      = [[Event.updateIpRecord 7 "10".toList "home".toList "1.2.3.4".toList], [],
         [Event.updateIpRecord 7 "10".toList "home".toList "1.2.3.5".toList]] := by
  decide

/-! ## The write to latestIp and the update calls -/

theorem updateTargets_no_panic (g : Globals) (inp : CycleInput)
    (hres : ∀ a b c d, inp.UpdateIpRecord a b c d ≠ UpdateResult.panic)
    (ids : List Str) (i : Nat) (hlen : i + ids.length ≤ g.SubDomainArr.length) :
    (updateTargets g inp i ids).2 = false := by
  induction ids generalizing i with
  | nil => rfl
  | cons subId rest ih =>
    simp only [List.length_cons] at hlen
    have hi : i < g.SubDomainArr.length := by omega
    unfold updateTargets
    rw [List.getElem?_eq_getElem hi]
    simp only
    split
    · rename_i hp
      exact absurd hp (hres _ _ _ _)
    · exact ih (i + 1) (by omega)
    · exact ih (i + 1) (by omega)

/-- Claim C10. A cycle whose address differs from `latestIp` writes `latestIp`
first, before any `UpdateIpRecord` call, and leaves it at the discovered address
whatever the calls do; the next cycle, discovering the same address, issues no
update call. When all the calls of the first cycle return an error (and every
index is in range), the second cycle is executed and consists of the
no-change line and the sleep. -/
theorem cycle_sets_latestIp_before_updates (g : Globals) (inp1 inp2 : CycleInput)
    (hne : inp1.localIp ≠ g.latestIp) (hsame : inp2.localIp = inp1.localIp) :
    (cycle g inp1).1.latestIp = inp1.localIp ∧
    (∃ rest, (cycle g inp1).2.1 = Event.setLatestIp inp1.localIp :: rest) ∧
    updateCalls (cycle (cycle g inp1).1 inp2).2.1 = [] ∧
    (∀ tr, (dnsUpdateLoop g [inp1, inp2]).2[1]? = some tr → updateCalls tr = []) ∧
    ((∀ a b c d, ∃ msg, inp1.UpdateIpRecord a b c d = UpdateResult.err msg) →
      g.SubDomainIdArr.length ≤ g.SubDomainArr.length →
      (dnsUpdateLoop g [inp1, inp2]).2
        = [(cycle g inp1).2.1,
           [Event.log LogMsg.ipNotChange, Event.sleep g.dnsCheckInterval]]) := by
  have hsame2 : inp2.localIp = (cycle g inp1).1.latestIp := by
    rw [cycle_latestIp, hsame]
  refine ⟨cycle_latestIp g inp1, ?_, ?_, ?_, ?_⟩
  · unfold cycle
    simp only [hne, if_false]
    split <;> exact ⟨_, rfl⟩
  · rw [cycle_same _ inp2 hsame2]
    simp [updateCalls, isUpdate]
  · intro tr htr
    apply loop_same_address_no_calls g [inp1, inp2] 1 tr inp2 htr rfl
    simp [prevAddress, hsame]
  · intro hfail hlen
    have hres : ∀ a b c d, inp1.UpdateIpRecord a b c d ≠ UpdateResult.panic := by
      intro a b c d hp
      obtain ⟨msg, hm⟩ := hfail a b c d
      rw [hm] at hp
      cases hp
    have hnp : (cycle g inp1).2.2 = false := by
      unfold cycle
      simp only [hne, if_false]
      have := updateTargets_no_panic { g with latestIp := inp1.localIp } inp1 hres
        g.SubDomainIdArr 0 (by simpa using hlen)
      simp [this]
    have hdc : (cycle g inp1).1.dnsCheckInterval = g.dnsCheckInterval := by
      unfold cycle
      simp only [hne, if_false]
      split <;> rfl
    simp only [dnsUpdateLoop, hnp, cycle_same _ inp2 hsame2, hdc]
    simp

/-- A witness of C10: the first cycle discovers 1.2.3.4 and its update call
returns an error; the second cycle discovers 1.2.3.4 again. -/
theorem cycle_sets_latestIp_before_updates_witness :
    (errInput "1.2.3.4").localIp ≠ (resolved (exampleCfg "home,nas" 0) homeProvider).latestIp ∧
    (errInput "1.2.3.4").localIp = (errInput "1.2.3.4").localIp ∧
    (∀ a b c d, ∃ msg, (errInput "1.2.3.4").UpdateIpRecord a b c d = UpdateResult.err msg) ∧
    (resolved (exampleCfg "home,nas" 0) homeProvider).SubDomainIdArr.length
      ≤ (resolved (exampleCfg "home,nas" 0) homeProvider).SubDomainArr.length ∧
    (dnsUpdateLoop (resolved (exampleCfg "home,nas" 0) homeProvider)
        [errInput "1.2.3.4", errInput "1.2.3.4"]).2
      = [(cycle (resolved (exampleCfg "home,nas" 0) homeProvider) (errInput "1.2.3.4")).2.1,
         [Event.log LogMsg.ipNotChange,
          Event.sleep (resolved (exampleCfg "home,nas" 0) homeProvider).dnsCheckInterval]] :=
  ⟨by decide, rfl, fun _ _ _ _ => ⟨_, rfl⟩, by decide,
   (cycle_sets_latestIp_before_updates (resolved (exampleCfg "home,nas" 0) homeProvider)
     (errInput "1.2.3.4") (errInput "1.2.3.4") (by decide) rfl).2.2.2.2
     (fun _ _ _ _ => ⟨_, rfl⟩) (by decide)⟩

/-- The run of the witness of C10, evaluated: the failed update of the first
cycle is not repeated by the second. -/
theorem failed_update_not_retried :
    (dnsUpdateLoop (resolved (exampleCfg "home,nas" 0) homeProvider)
        [errInput "1.2.3.4", errInput "1.2.3.4"]).2
      = [[Event.setLatestIp "1.2.3.4".toList,
          Event.log (LogMsg.localIp "1.2.3.4".toList),
          Event.updateIpRecord 7 "10".toList "home".toList "1.2.3.4".toList,
          Event.log (LogMsg.updateError "home.example.com".toList "fail".toList),
          Event.sleep (300 * Second)],
         [Event.log LogMsg.ipNotChange, Event.sleep (300 * Second)]] := by
  decide

/-! ## Crash recovery -/

theorem updateTargets_events (g : Globals) (inp : CycleInput) (ids : List Str) (i : Nat) :
    Event.log LogMsg.recovered ∉ (updateTargets g inp i ids).1 ∧
    Event.spawn ∉ (updateTargets g inp i ids).1 := by
  induction ids generalizing i with
  | nil => simp [updateTargets]
  | cons subId rest ih =>
    unfold updateTargets
    split
    · simp
    · simp only
      split
      · simp
      · simpa using ih (i + 1)
      · simpa using ih (i + 1)

theorem cycle_events (g : Globals) (inp : CycleInput) :
    Event.log LogMsg.recovered ∉ (cycle g inp).2.1 ∧ Event.spawn ∉ (cycle g inp).2.1 := by
  unfold cycle
  split
  · simp
  · have h := updateTargets_events { g with latestIp := inp.localIp } inp g.SubDomainIdArr 0
    simp only
    split <;> simpa using h

theorem cycle_panicCount (g : Globals) (inp : CycleInput) :
    (cycle g inp).1.panicCount = g.panicCount := by
  unfold cycle
  split
  · rfl
  · simp only
    split <;> rfl

/-- The three ways the head cycle of a run ends: without panic; with a panic
after which a new instance runs the remaining cycles; with a panic after which
nothing runs any more. -/
theorem dnsUpdateLoop_cons_cases (g : Globals) (inp : CycleInput) (rest : List CycleInput) :
    (∃ tr g1, failed tr = false ∧ restarted tr = false ∧ g1.panicCount = g.panicCount ∧
      dnsUpdateLoop g (inp :: rest)
        = ((dnsUpdateLoop g1 rest).1, tr :: (dnsUpdateLoop g1 rest).2)) ∨
    (∃ tr g1, failed tr = true ∧ restarted tr = true ∧ g.panicCount + 1 < PANIC_MAX ∧
      g1.panicCount = g.panicCount + 1 ∧
      dnsUpdateLoop g (inp :: rest)
        = ((dnsUpdateLoop g1 rest).1, tr :: (dnsUpdateLoop g1 rest).2)) ∨
    (∃ tr g1, failed tr = true ∧ restarted tr = false ∧ ¬ g.panicCount + 1 < PANIC_MAX ∧
      g1.panicCount = g.panicCount + 1 ∧ dnsUpdateLoop g (inp :: rest) = (g1, [tr])) := by
  have hev := cycle_events g inp
  have hpc := cycle_panicCount g inp
  by_cases hp : (cycle g inp).2.2 = true
  · by_cases hlt : g.panicCount + 1 < PANIC_MAX
    · right; left
      refine ⟨(cycle g inp).2.1 ++ [Event.log LogMsg.recovered,
          Event.log (LogMsg.gotPanic (g.panicCount + 1)), Event.spawn],
        { (cycle g inp).1 with panicCount := (cycle g inp).1.panicCount + 1 }, ?_, ?_, hlt, ?_, ?_⟩
      · simp [failed]
      · simp [restarted]
      · simp [hpc]
      · simp [dnsUpdateLoop, hp, recoverPanic, hpc, hlt]
    · right; right
      refine ⟨(cycle g inp).2.1 ++ [Event.log LogMsg.recovered],
        { (cycle g inp).1 with panicCount := (cycle g inp).1.panicCount + 1 }, ?_, ?_, hlt, ?_, ?_⟩
      · simp [failed]
      · simp [restarted, hev.2]
      · simp [hpc]
      · simp [dnsUpdateLoop, hp, recoverPanic, hpc, hlt]
  · left
    refine ⟨(cycle g inp).2.1, (cycle g inp).1, ?_, ?_, hpc, ?_⟩
    · simp [failed, hev.1]
    · simp [restarted, hev.2]
    · simp [dnsUpdateLoop, hp]

theorem loop_panicCount (g : Globals) (inputs : List CycleInput) :
    (dnsUpdateLoop g inputs).1.panicCount
      = g.panicCount + ((dnsUpdateLoop g inputs).2.countP failed : Nat) := by
  induction inputs generalizing g with
  | nil => simp [dnsUpdateLoop]
  | cons inp rest ih =>
    rcases dnsUpdateLoop_cons_cases g inp rest with
      ⟨tr, g1, hf, _, hc, he⟩ | ⟨tr, g1, hf, _, _, hc, he⟩ | ⟨tr, g1, hf, _, _, hc, he⟩
    · rw [he]
      simp only [List.countP_cons, hf]
      rw [ih g1, hc]
      simp
    · rw [he]
      simp only [List.countP_cons, hf]
      rw [ih g1, hc]
      push_cast
      omega
    · rw [he]
      simp [List.countP_cons, hf, hc]

theorem loop_panicCount_le (g : Globals) (inputs : List CycleInput)
    (h : g.panicCount < PANIC_MAX) :
    (dnsUpdateLoop g inputs).1.panicCount ≤ PANIC_MAX := by
  induction inputs generalizing g with
  | nil => simp only [dnsUpdateLoop]; omega
  | cons inp rest ih =>
    rcases dnsUpdateLoop_cons_cases g inp rest with
      ⟨tr, g1, _, _, hc, he⟩ | ⟨tr, g1, _, _, hlt, hc, he⟩ | ⟨tr, g1, _, _, _, hc, he⟩
    · rw [he]
      exact ih g1 (by omega)
    · rw [he]
      exact ih g1 (by omega)
    · rw [he]
      simp only
      omega

theorem loop_restart_iff (g : Globals) (inputs : List CycleInput) (k : Nat) (tr : List Event)
    (htr : (dnsUpdateLoop g inputs).2[k]? = some tr) :
    (restarted tr = true ↔
      failed tr = true ∧
      g.panicCount + (((dnsUpdateLoop g inputs).2.take (k + 1)).countP failed : Nat)
        < PANIC_MAX) := by
  induction inputs generalizing g k with
  | nil => simp [dnsUpdateLoop] at htr
  | cons inp rest ih =>
    rcases dnsUpdateLoop_cons_cases g inp rest with
      ⟨tr0, g1, hf, hr, hc, he⟩ | ⟨tr0, g1, hf, hr, hlt, hc, he⟩ | ⟨tr0, g1, hf, hr, hlt, hc, he⟩
    · rw [he] at htr ⊢
      cases k with
      | zero =>
        simp only [List.getElem?_cons_zero, Option.some.injEq] at htr
        subst htr
        simp [hf, hr]
      | succ j =>
        simp only [List.getElem?_cons_succ] at htr
        have := ih g1 j htr
        simp only [List.take_succ_cons, List.countP_cons, hf]
        rw [this, hc]
        simp
    · rw [he] at htr ⊢
      cases k with
      | zero =>
        simp only [List.getElem?_cons_zero, Option.some.injEq] at htr
        subst htr
        simp [hf, hr, List.countP_cons]
        exact hlt
      | succ j =>
        simp only [List.getElem?_cons_succ] at htr
        have := ih g1 j htr
        simp only [List.take_succ_cons, List.countP_cons, hf]
        rw [this, hc]
        push_cast
        constructor
        · rintro ⟨h1, h2⟩
          exact ⟨h1, by omega⟩
        · rintro ⟨h1, h2⟩
          exact ⟨h1, by omega⟩
    · rw [he] at htr ⊢
      cases k with
      | zero =>
        simp only [List.getElem?_cons_zero, Option.some.injEq] at htr
        subst htr
        simp [hf, hr, List.countP_cons]
        omega
      | succ j => simp at htr

theorem loop_stops_after_last_panic (g : Globals) (inputs : List CycleInput)
    (k : Nat) (tr : List Event)
    (htr : (dnsUpdateLoop g inputs).2[k]? = some tr)
    (hf : failed tr = true) (hr : restarted tr = false) :
    (dnsUpdateLoop g inputs).2.length = k + 1 := by
  induction inputs generalizing g k with
  | nil => simp [dnsUpdateLoop] at htr
  | cons inp rest ih =>
    rcases dnsUpdateLoop_cons_cases g inp rest with
      ⟨tr0, g1, hf0, hr0, _, he⟩ | ⟨tr0, g1, hf0, hr0, _, _, he⟩ | ⟨tr0, g1, hf0, hr0, _, _, he⟩
    · rw [he] at htr ⊢
      cases k with
      | zero =>
        simp only [List.getElem?_cons_zero, Option.some.injEq] at htr
        subst htr
        rw [hf0] at hf
        cases hf
      | succ j =>
        simp only [List.getElem?_cons_succ] at htr
        simp [ih g1 j htr]
    · rw [he] at htr ⊢
      cases k with
      | zero =>
        simp only [List.getElem?_cons_zero, Option.some.injEq] at htr
        subst htr
        rw [hr0] at hr
        cases hr
      | succ j =>
        simp only [List.getElem?_cons_succ] at htr
        simp [ih g1 j htr]
    · rw [he] at htr ⊢
      cases k with
      | zero => simp
      | succ j => simp at htr

/-- In a process that stays alive: the deferred function adds exactly one to
`panicCount` and starts a new loop instance if and only if the incremented
count is below `PANIC_MAX`. In a run from `panicCount = 0` the final count is
the number of cycles ended by a panic and never exceeds `PANIC_MAX`; a failed
cycle is followed by a new instance if and only if the count it reaches is
below `PANIC_MAX`, and a failed cycle without restart is the last cycle. -/
theorem dnsUpdateLoop_restart_bound (g : Globals) (inputs : List CycleInput)
    (h0 : g.panicCount = 0) :
    (∀ g1 : Globals, (recoverPanic g1).1.panicCount = g1.panicCount + 1 ∧
      ((recoverPanic g1).2.2 = true ↔ g1.panicCount + 1 < PANIC_MAX)) ∧
    (dnsUpdateLoop g inputs).1.panicCount = ((dnsUpdateLoop g inputs).2.countP failed : Nat) ∧
    (dnsUpdateLoop g inputs).1.panicCount ≤ PANIC_MAX ∧
    (∀ k tr, (dnsUpdateLoop g inputs).2[k]? = some tr →
      (restarted tr = true ↔
        failed tr = true ∧
        ((((dnsUpdateLoop g inputs).2.take (k + 1)).countP failed : Nat) : Int) < PANIC_MAX)) ∧
    (∀ k tr, (dnsUpdateLoop g inputs).2[k]? = some tr → failed tr = true →
      restarted tr = false → (dnsUpdateLoop g inputs).2.length = k + 1) := by
  refine ⟨?_, ?_, ?_, ?_, ?_⟩
  · intro g1
    unfold recoverPanic
    simp only
    split
    · rename_i h
      exact ⟨rfl, by simpa using h⟩
    · rename_i h
      exact ⟨rfl, by simpa using h⟩
  · have := loop_panicCount g inputs
    rw [h0] at this
    simpa using this
  · exact loop_panicCount_le g inputs (by rw [h0]; decide)
  · intro k tr htr
    have := loop_restart_iff g inputs k tr htr
    rw [h0] at this
    simpa using this
  · intro k tr htr hf hr
    exact loop_stops_after_last_panic g inputs k tr htr hf hr

/-- The bound on `panicCount` applied to six cycles that would all panic. -/
theorem dnsUpdateLoop_restart_bound_witness :
    (resolved (exampleCfg "home,nas" 0) homeProvider).panicCount = 0 ∧
    (dnsUpdateLoop (resolved (exampleCfg "home,nas" 0) homeProvider)
        [panicInput "1", panicInput "2", panicInput "3", panicInput "4", panicInput "5",
         panicInput "6"]).1.panicCount ≤ PANIC_MAX :=
  ⟨by decide,
   (dnsUpdateLoop_restart_bound (resolved (exampleCfg "home,nas" 0) homeProvider)
      [panicInput "1", panicInput "2", panicInput "3", panicInput "4", panicInput "5",
       panicInput "6"] (by decide)).2.2.1⟩

/-- Six cycles that would all panic, in a process that stays alive: five are
executed, each ends by a panic, four are followed by a new loop instance, and
`panicCount` ends at 5. -/
theorem six_panics_evaluated :
    (dnsUpdateLoop (resolved (exampleCfg "home,nas" 0) homeProvider)
        [panicInput "1", panicInput "2", panicInput "3", panicInput "4", panicInput "5",
         panicInput "6"]).1.panicCount = 5 ∧
    (dnsUpdateLoop (resolved (exampleCfg "home,nas" 0) homeProvider)
        [panicInput "1", panicInput "2", panicInput "3", panicInput "4", panicInput "5",
         panicInput "6"]).2.map (fun tr => (failed tr, restarted tr))
      = [(true, true), (true, true), (true, true), (true, true), (true, false)] := by
  decide

theorem loop_first_cycle_runs (g : Globals) (inputs : List CycleInput)
    (h : 0 < inputs.length) : 0 < (dnsUpdateLoop g inputs).2.length := by
  cases inputs with
  | nil => simp at h
  | cons inp rest =>
    rcases dnsUpdateLoop_cons_cases g inp rest with
      ⟨tr, g1, _, _, _, he⟩ | ⟨tr, g1, _, _, _, _, he⟩ | ⟨tr, g1, _, _, _, _, he⟩ <;>
      · rw [he]
        simp

/-- In a process that stays alive, the cycle after a cycle that did not fail,
and the cycle after a failed cycle that started a new instance, is executed
whenever there is an input for it. -/
theorem loop_goes_on (g : Globals) (inputs : List CycleInput) (k : Nat) (tr : List Event)
    (htr : (dnsUpdateLoop g inputs).2[k]? = some tr)
    (hgo : failed tr = false ∨ restarted tr = true) (hk : k + 1 < inputs.length) :
    k + 1 < (dnsUpdateLoop g inputs).2.length := by
  induction inputs generalizing g k with
  | nil => simp at hk
  | cons inp rest ih =>
    simp only [List.length_cons] at hk
    rcases dnsUpdateLoop_cons_cases g inp rest with
      ⟨tr0, g1, hf0, hr0, _, he⟩ | ⟨tr0, g1, hf0, hr0, _, _, he⟩ | ⟨tr0, g1, hf0, hr0, _, _, he⟩
    · rw [he] at htr ⊢
      simp only [List.length_cons]
      cases k with
      | zero =>
        have := loop_first_cycle_runs g1 rest (by omega)
        omega
      | succ j =>
        simp only [List.getElem?_cons_succ] at htr
        have := ih g1 j htr (by omega)
        omega
    · rw [he] at htr ⊢
      simp only [List.length_cons]
      cases k with
      | zero =>
        have := loop_first_cycle_runs g1 rest (by omega)
        omega
      | succ j =>
        simp only [List.getElem?_cons_succ] at htr
        have := ih g1 j htr (by omega)
        omega
    · rw [he] at htr
      cases k with
      | zero =>
        simp only [List.getElem?_cons_zero, Option.some.injEq] at htr
        subst htr
        rw [hf0, hr0] at hgo
        rcases hgo with h | h <;> cases h
      | succ j => simp at htr

/-! ## The restart in the program -/

/-- One call of `dnsUpdateLoop` ends with its first failed cycle: at most one
cycle of the call fails, it is the last cycle of the call, and `panicCount`
grows by the number of failed cycles, that is by one at most. -/
theorem dnsUpdateLoopCall_one_failure (g : Globals) (inputs : List CycleInput) :
    (dnsUpdateLoopCall g inputs).2.countP failed ≤ 1 ∧
    (dnsUpdateLoopCall g inputs).1.panicCount
      = g.panicCount + ((dnsUpdateLoopCall g inputs).2.countP failed : Nat) ∧
    (∀ k tr, (dnsUpdateLoopCall g inputs).2[k]? = some tr → failed tr = true →
      (dnsUpdateLoopCall g inputs).2.length = k + 1) := by
  induction inputs generalizing g with
  | nil => simp [dnsUpdateLoopCall]
  | cons inp rest ih =>
    have hev := cycle_events g inp
    have hpc := cycle_panicCount g inp
    have hf0 : failed (cycle g inp).2.1 = false := by simp [failed, hev.1]
    have hf1 : failed ((cycle g inp).2.1 ++ (recoverPanic (cycle g inp).1).2.1) = true := by
      unfold recoverPanic
      simp only
      split <;> simp [failed]
    have hr1 : (recoverPanic (cycle g inp).1).1.panicCount = g.panicCount + 1 := by
      unfold recoverPanic
      simp only
      split <;> simp [hpc]
    unfold dnsUpdateLoopCall
    simp only
    split
    · refine ⟨?_, ?_, ?_⟩
      · simp [List.countP_cons, hf1]
      · simp [List.countP_cons, hf1, hr1]
      · intro k tr htr _
        cases k with
        | zero => simp
        | succ j => simp at htr
    · obtain ⟨h1, h2, h3⟩ := ih (cycle g inp).1
      refine ⟨?_, ?_, ?_⟩
      · simpa [List.countP_cons, hf0] using h1
      · simp only [List.countP_cons, hf0]
        rw [h2, hpc]
        simp
      · intro k tr htr hf
        cases k with
        | zero =>
          simp only [List.getElem?_cons_zero, Option.some.injEq] at htr
          subst htr
          rw [hf0] at hf
          cases hf
        | succ j =>
          simp only [List.getElem?_cons_succ] at htr
          simp [h3 j tr htr hf]

/-- Claim C6, evaluated on the program. The update call of the first cycle
panics and the two later cycles would succeed: the deferred function counts
the panic, logs that a new instance will be started and starts the goroutine,
the call of `dnsUpdateLoop` returns and `main` ends, so the cycle of the panic
is the only cycle of the process and `panicCount` stays at 1; in a process
that stays alive the restarted instance runs the two later cycles. -/
theorem main_ends_after_first_panic :
    (main false false false (exampleCfg "home,nas" 0) homeProvider []
        [panicInput "1.2.3.4", okInput "1.2.3.5", okInput "1.2.3.6"]).2
      = [[Event.setLatestIp "1.2.3.4".toList,
          Event.log (LogMsg.localIp "1.2.3.4".toList),
          Event.updateIpRecord 7 "10".toList "home".toList "1.2.3.4".toList,
          Event.log LogMsg.recovered,
          Event.log (LogMsg.gotPanic 1),
          Event.spawn]] ∧
    (dnsUpdateLoopCall (resolved (exampleCfg "home,nas" 0) homeProvider)
        [panicInput "1.2.3.4", okInput "1.2.3.5", okInput "1.2.3.6"]).1.panicCount = 1 ∧
    (dnsUpdateLoop (resolved (exampleCfg "home,nas" 0) homeProvider)
        [panicInput "1.2.3.4", okInput "1.2.3.5", okInput "1.2.3.6"]).2.map updateCalls
      = [[Event.updateIpRecord 7 "10".toList "home".toList "1.2.3.4".toList],
         [Event.updateIpRecord 7 "10".toList "home".toList "1.2.3.5".toList],
         [Event.updateIpRecord 7 "10".toList "home".toList "1.2.3.6".toList]] := by
  decide

/-- Six cycles that would all panic, in the program: the first is the only
one that runs, and `panicCount` ends at 1, below the ceiling. -/
theorem main_six_panics_evaluated :
    ((main false false false (exampleCfg "home,nas" 0) homeProvider []
        [panicInput "1", panicInput "2", panicInput "3", panicInput "4", panicInput "5",
         panicInput "6"]).2.map (fun tr => (failed tr, restarted tr)))
      = [(true, true)] ∧
    (dnsUpdateLoopCall (resolved (exampleCfg "home,nas" 0) homeProvider)
        [panicInput "1", panicInput "2", panicInput "3", panicInput "4", panicInput "5",
         panicInput "6"]).1.panicCount = 1 := by
  decide

/-! ## The label passed to UpdateIpRecord -/

/-- Claim C2, evaluated at `nas,home` where the provider knows `home` only:
`checkDomain` finds no record for `nas` and keeps the id of `home`, and the
cycle passes the label `nas` to `UpdateIpRecord` with the record id of `home`. -/
theorem unknown_label_passed_to_update :
    homeProvider.getSubDomain 7 "nas".toList = ([], []) ∧
    (checkDomain (exampleCfg "nas,home" 0) homeProvider initGlobals).1
      = [Event.getDomain "example.com".toList,
         Event.getSubDomain 7 "nas".toList,
         Event.log (LogMsg.notInList "nas.example.com".toList),
         Event.getSubDomain 7 "home".toList,
         Event.log (LogMsg.stat "home.example.com".toList "9.9.9.9".toList)] ∧
    (resolved (exampleCfg "nas,home" 0) homeProvider).SubDomainIdArr = ["10".toList] ∧
    (cycle (resolved (exampleCfg "nas,home" 0) homeProvider) (okInput "1.2.3.4")).2.1
      = [Event.setLatestIp "1.2.3.4".toList,
         Event.log (LogMsg.localIp "1.2.3.4".toList),
         Event.updateIpRecord 7 "10".toList "nas".toList "1.2.3.4".toList,
         Event.log (LogMsg.updateSuccess "nas.example.com".toList),
         Event.sleep (300 * Second)] := by
  decide

/-- Claim C3, evaluated at `nas, home ,www` where the provider knows `home`
(record 10) and `www` (record 11): the labels looked up are `nas`, `home`,
`www`, the resolved ids are 10 and 11, and the cycle calls `UpdateIpRecord`
with record 10 and the label `nas`, then with record 11 and the untrimmed
piece around `home`. -/
theorem update_label_of_other_piece :
    lookedUp (checkDomain (exampleCfg "nas, home ,www" 0) twoProvider initGlobals).1
      = ["nas".toList, "home".toList, "www".toList] ∧
    (resolved (exampleCfg "nas, home ,www" 0) twoProvider).SubDomainIdArr
      = ["10".toList, "11".toList] ∧
    updateCalls
        (cycle (resolved (exampleCfg "nas, home ,www" 0) twoProvider) (okInput "1.2.3.4")).2.1
      = [Event.updateIpRecord 7 "10".toList "nas".toList "1.2.3.4".toList,
         Event.updateIpRecord 7 "11".toList " home ".toList "1.2.3.4".toList] := by
  decide

/-! ## The labels looked up by checkDomain -/

theorem checkSubDomains_spec (P : Provider) (domain : Str) (domainId : Int)
    (pieces ids : List Str) :
    lookedUp (checkSubDomains P domain domainId pieces ids).1
      = (pieces.map TrimSpace).filter (fun v => decide (v ≠ [])) ∧
    (checkSubDomains P domain domainId pieces ids).2
      = ids ++ resolvedIds P domainId
          ((pieces.map TrimSpace).filter (fun v => decide (v ≠ []))) := by
  induction pieces generalizing ids with
  | nil => simp [checkSubDomains, lookedUp, resolvedIds]
  | cons v rest ih =>
    unfold checkSubDomains
    by_cases hv : TrimSpace v = []
    · simp only [hv, List.length_nil, ne_eq, not_true_eq_false, if_false, List.map_cons]
      simpa [List.filter_cons, hv] using ih ids
    · have hlen : (TrimSpace v).length ≠ 0 := by
        simpa [List.length_eq_zero] using hv
      simp only [hlen, ne_eq, not_false_eq_true, if_true, List.map_cons]
      by_cases hr : (P.getSubDomain domainId (TrimSpace v)).1 = [] ∨
          (P.getSubDomain domainId (TrimSpace v)).2 = []
      · simp only [hr, if_true, lookedUp]
        simp [List.filter_cons, hv, resolvedIds, hr, (ih ids).1]
        simpa [resolvedIds] using (ih ids).2
      · simp only [hr, if_false, lookedUp]
        simp [List.filter_cons, hv, resolvedIds, hr, (ih _).1]
        simpa [resolvedIds] using (ih (ids ++ [(P.getSubDomain domainId (TrimSpace v)).1])).2

theorem regexMatch_iff (s : Str) :
    regexMatch s = true ↔ ∃ c, c ∈ s ∧ c ∈ disallowed := by
  simp [regexMatch, List.any_eq_true]

/-- Claim C7. For a raw subdomain string free of the disallowed characters
(and a domain the provider knows, so that `checkDomain` reaches the lookups),
the labels `checkDomain` looks up are exactly the trimmed, non-empty pieces of
the comma-split string in input order, and the ids it appends to
`SubDomainIdArr` are those of the resolved labels in that same order. -/
theorem checkDomain_looks_up_candidate_labels (cfg : Settings) (P : Provider) (g : Globals)
    (hd : P.GetDomain (TrimSpace cfg.Domain) ≠ -1)
    (hfree : ∀ c, c ∈ cfg.SubDomains → c ∉ disallowed) :
    lookedUp (checkDomain cfg P g).1 = candidateLabels cfg.SubDomains ∧
    ∃ g1, (checkDomain cfg P g).2 = some g1 ∧
      g1.SubDomainIdArr = g.SubDomainIdArr ++
        resolvedIds P (P.GetDomain (TrimSpace cfg.Domain)) (candidateLabels cfg.SubDomains) := by
  have hm : regexMatch cfg.SubDomains = false := by
    cases hb : regexMatch cfg.SubDomains with
    | false => rfl
    | true =>
      obtain ⟨c, hc1, hc2⟩ := (regexMatch_iff _).1 hb
      exact absurd hc2 (hfree c hc1)
  have hs := checkSubDomains_spec P (TrimSpace cfg.Domain) (P.GetDomain (TrimSpace cfg.Domain))
    (Split cfg.SubDomains) g.SubDomainIdArr
  unfold checkDomain
  simp only [hd, hm, if_false, Bool.false_eq_true]
  refine ⟨?_, _, rfl, ?_⟩
  · simpa [lookedUp, candidateLabels] using hs.1
  · simpa [candidateLabels] using hs.2

/-- A witness of C7 on the string of the specification. -/
theorem checkDomain_looks_up_candidate_labels_witness :
    twoProvider.GetDomain (TrimSpace (exampleCfg "www, blog ,  ,api" 0).Domain) ≠ -1 ∧
    (∀ c, c ∈ (exampleCfg "www, blog ,  ,api" 0).SubDomains → c ∉ disallowed) ∧
    lookedUp (checkDomain (exampleCfg "www, blog ,  ,api" 0) twoProvider initGlobals).1
      = candidateLabels (exampleCfg "www, blog ,  ,api" 0).SubDomains :=
  ⟨by decide, by decide,
   (checkDomain_looks_up_candidate_labels (exampleCfg "www, blog ,  ,api" 0) twoProvider
      initGlobals (by decide) (by decide)).1⟩

/-- The string of the specification yields the labels `www`, `blog`, `api`,
in the words of the specification and in the lookups of `checkDomain`. -/
theorem candidate_labels_example :
    candidateLabels "www, blog ,  ,api".toList = ["www".toList, "blog".toList, "api".toList] ∧
    lookedUp (checkDomain (exampleCfg "www, blog ,  ,api" 0) twoProvider initGlobals).1
      = ["www".toList, "blog".toList, "api".toList] := by
  decide

/-! ## The disallowed characters -/

/-- The claim C4 fails at the subdomain string `;`: the rejection is the third
event of `checkDomain`, and the `GetDomain` call comes before it. -/
theorem getDomain_precedes_rejection :
    (checkDomain (exampleCfg ";" 0) homeProvider initGlobals).1
      = [Event.getDomain "example.com".toList, Event.log LogMsg.multiSubDomains,
         Event.exit 1] ∧
    callsBeforeExit (checkDomain (exampleCfg ";" 0) homeProvider initGlobals).1
      = [Event.getDomain "example.com".toList] := by
  decide

/-- Claim C4, amended. For a raw subdomain string that contains a disallowed
character, `checkDomain` ends the process; the only provider call before the
exit is the `GetDomain` lookup of the trimmed domain (no `getSubDomain`, no
`UpdateIpRecord`). When the provider knows the domain the string is rejected
with exit status 1, right after that lookup; when it does not, the process
exits with status 0 on that account. -/
theorem checkDomain_rejects_disallowed (cfg : Settings) (P : Provider) (g : Globals)
    (h : ∃ c, c ∈ cfg.SubDomains ∧ c ∈ disallowed) :
    (checkDomain cfg P g).2 = none ∧
    callsBeforeExit (checkDomain cfg P g).1 = [Event.getDomain (TrimSpace cfg.Domain)] ∧
    lookedUp (checkDomain cfg P g).1 = [] ∧
    updateCalls (checkDomain cfg P g).1 = [] ∧
    (P.GetDomain (TrimSpace cfg.Domain) ≠ -1 →
      (checkDomain cfg P g).1
        = [Event.getDomain (TrimSpace cfg.Domain), Event.log LogMsg.multiSubDomains,
           Event.exit 1]) ∧
    (P.GetDomain (TrimSpace cfg.Domain) = -1 →
      (checkDomain cfg P g).1
        = [Event.getDomain (TrimSpace cfg.Domain),
           Event.log (LogMsg.domainNotResolved (TrimSpace cfg.Domain)), Event.exit 0]) := by
  have hm : regexMatch cfg.SubDomains = true := (regexMatch_iff _).2 h
  unfold checkDomain
  by_cases hd : P.GetDomain (TrimSpace cfg.Domain) = -1
  · simp [hd, callsBeforeExit, isExit, isProviderCall, lookedUp, updateCalls, isUpdate]
  · simp [hd, hm, callsBeforeExit, isExit, isProviderCall, lookedUp, updateCalls, isUpdate]

/-- A witness of the amended C4 at the subdomain string `a;b`. -/
theorem checkDomain_rejects_disallowed_witness :
    (∃ c, c ∈ (exampleCfg "a;b" 0).SubDomains ∧ c ∈ disallowed) ∧
    (checkDomain (exampleCfg "a;b" 0) homeProvider initGlobals).2 = none ∧
    callsBeforeExit (checkDomain (exampleCfg "a;b" 0) homeProvider initGlobals).1
      = [Event.getDomain (TrimSpace (exampleCfg "a;b" 0).Domain)] :=
  ⟨⟨';', by decide, by decide⟩,
   (checkDomain_rejects_disallowed (exampleCfg "a;b" 0) homeProvider initGlobals
      ⟨';', by decide, by decide⟩).1,
   (checkDomain_rejects_disallowed (exampleCfg "a;b" 0) homeProvider initGlobals
      ⟨';', by decide, by decide⟩).2.1⟩

/-! ## The check interval -/

theorem updateTargets_sleep (g : Globals) (inp : CycleInput) (ids : List Str) (i : Nat) (d : Int) :
    Event.sleep d ∉ (updateTargets g inp i ids).1 := by
  induction ids generalizing i with
  | nil => simp [updateTargets]
  | cons subId rest ih =>
    unfold updateTargets
    split
    · simp
    · simp only
      split
      · simp
      · simpa using ih (i + 1)
      · simpa using ih (i + 1)

/-- Every sleep of a cycle lasts `dnsCheckInterval`, and a cycle that is not
left by a panic ends with that sleep. -/
theorem cycle_sleep (g : Globals) (inp : CycleInput) :
    (∀ d, Event.sleep d ∈ (cycle g inp).2.1 → d = g.dnsCheckInterval) ∧
    ((cycle g inp).2.2 = false →
      (cycle g inp).2.1.getLast? = some (Event.sleep g.dnsCheckInterval)) := by
  unfold cycle
  split
  · simp
  · have h := updateTargets_sleep { g with latestIp := inp.localIp } inp g.SubDomainIdArr 0
    simp only
    split
    · constructor
      · intro d hd
        simp only [List.mem_cons, reduceCtorEq, false_or] at hd
        exact absurd hd (h d)
      · intro hf
        cases hf
    · constructor
      · intro d hd
        simp only [List.mem_cons, reduceCtorEq, false_or, List.mem_append,
          Event.sleep.injEq, List.not_mem_nil, or_false] at hd
        rcases hd with hd | hd
        · exact absurd hd (h d)
        · exact hd
      · intro _
        exact List.getLast?_concat (Event.setLatestIp inp.localIp ::
          Event.log (LogMsg.localIp inp.localIp) ::
          (updateTargets { g with latestIp := inp.localIp } inp 0 g.SubDomainIdArr).1)

theorem cycle_dnsCheckInterval (g : Globals) (inp : CycleInput) :
    (cycle g inp).1.dnsCheckInterval = g.dnsCheckInterval := by
  unfold cycle
  split
  · rfl
  · simp only
    split <;> rfl

theorem recoverPanic_sleep (g : Globals) (d : Int) :
    Event.sleep d ∉ (recoverPanic g).2.1 ∧
    (recoverPanic g).1.dnsCheckInterval = g.dnsCheckInterval := by
  unfold recoverPanic
  simp only
  split <;> simp

/-- Every sleep in the cycles of a run lasts the `dnsCheckInterval` the run
starts with. -/
theorem loop_sleep (g : Globals) (inputs : List CycleInput) (tr : List Event) (d : Int)
    (htr : tr ∈ (dnsUpdateLoop g inputs).2) (hd : Event.sleep d ∈ tr) :
    d = g.dnsCheckInterval := by
  induction inputs generalizing g with
  | nil => simp [dnsUpdateLoop] at htr
  | cons inp rest ih =>
    have hc := (cycle_sleep g inp).1 d
    have hi := cycle_dnsCheckInterval g inp
    have hr := recoverPanic_sleep (cycle g inp).1 d
    unfold dnsUpdateLoop at htr
    simp only at htr
    split at htr
    · split at htr
      · rcases List.mem_cons.1 htr with h | h
        · subst h
          rcases List.mem_append.1 hd with h1 | h1
          · exact hc h1
          · exact absurd h1 hr.1
        · rw [ih _ h, hr.2, hi]
      · rw [List.mem_singleton] at htr
        subst htr
        rcases List.mem_append.1 hd with h1 | h1
        · exact hc h1
        · exact absurd h1 hr.1
    · rcases List.mem_cons.1 htr with h | h
      · subst h
        exact hc hd
      · rw [ih _ h, hi]

theorem checkDomain_dnsCheckInterval (cfg : Settings) (P : Provider) (g g1 : Globals)
    (h : (checkDomain cfg P g).2 = some g1) : g1.dnsCheckInterval = g.dnsCheckInterval := by
  unfold checkDomain at h
  simp only at h
  split at h
  · cases h
  · split at h
    · cases h
    · simp only [Option.some.injEq] at h
      subst h
      rfl

theorem wrapInt64_of_range (x : Int) (h1 : -2 ^ 63 ≤ x) (h2 : x < 2 ^ 63) :
    wrapInt64 x = x := by
  unfold wrapInt64
  omega

/-- The claim C5 fails at a negative interval, which is non-zero and shorter
than 300 and is accepted with the default of 300 seconds; and at 9223372037,
whose product with `time.Second` leaves the range of `int64`. -/
theorem negative_interval_accepted :
    (mainCheckInterval (exampleCfg "" (-1)) initGlobals).1 = [] ∧
    (mainCheckInterval (exampleCfg "" (-1)) initGlobals).2.map Globals.dnsCheckInterval
      = some (300 * Second) ∧
    (mainCheckInterval (exampleCfg "" 9223372037) initGlobals).2.map Globals.dnsCheckInterval
      = some (-9223372036709551616) := by
  decide

/-- The cycles of one call of `dnsUpdateLoop` are the first cycles of the run
in which the restarted instances go on. -/
theorem dnsUpdateLoopCall_initial_cycles (g : Globals) (inputs : List CycleInput) :
    (dnsUpdateLoopCall g inputs).2 <+: (dnsUpdateLoop g inputs).2 := by
  induction inputs generalizing g with
  | nil => simp [dnsUpdateLoopCall, dnsUpdateLoop]
  | cons inp rest ih =>
    unfold dnsUpdateLoopCall dnsUpdateLoop
    simp only
    split
    · split
      · simp [List.cons_prefix_cons]
      · exact List.prefix_refl _
    · simp only [List.cons_prefix_cons, true_and]
      exact ih _

/-- Every sleep in the cycles of the loop started after `checkDomain` lasts
the `dnsCheckInterval` that `checkDomain` was entered with. -/
theorem resolved_loop_sleep (cfg : Settings) (P : Provider) (g1 g2 : Globals)
    (inputs : List CycleInput) (tr : List Event) (d : Int)
    (hc : (checkDomain cfg P g1).2 = some g2)
    (htr : tr ∈ (dnsUpdateLoop g2 inputs).2) (hd : Event.sleep d ∈ tr) :
    d = g1.dnsCheckInterval := by
  rw [← checkDomain_dnsCheckInterval cfg P g1 g2 hc]
  exact loop_sleep g2 inputs tr d htr hd

/-- Every sleep in the cycles `main` runs lasts the interval that the
configuration check leaves in `dnsCheckInterval`. -/
theorem main_sleep (cfg : Settings) (P : Provider) (resolveInternal : Bool)
    (nets : List Net) (inputs : List CycleInput) (g1 : Globals) (t1 : List Event)
    (h : mainCheckInterval cfg initGlobals = (t1, some g1))
    (tr : List Event) (d : Int)
    (htr : tr ∈ (main false false resolveInternal cfg P nets inputs).2)
    (hd : Event.sleep d ∈ tr) : d = g1.dnsCheckInterval := by
  unfold main at htr
  simp only [Bool.false_eq_true, if_false, h] at htr
  split at htr
  · simp at htr
  · rename_i t2 g2 hc
    have hc2 : (checkDomain cfg P g1).2 = some g2 := by rw [hc]
    exact resolved_loop_sleep cfg P g1 g2 inputs tr d hc2
      ((dnsUpdateLoopCall_initial_cycles g2 inputs).subset htr) hd

/-- Claim C5, amended. An interval of `n` seconds with `n ≤ 0` leaves the
default of 300 seconds; with `0 < n < 300` it ends the process at startup; with
`300 ≤ n ≤ 9223372036` it is accepted and every inter-cycle sleep of the loop
lasts exactly `n` seconds, in the cycles `main` runs and in the cycles of the
instances restarted in a process that stays alive. -/
theorem mainCheckInterval_cases (cfg : Settings) :
    (cfg.DnsCheckSecond ≤ 0 →
      mainCheckInterval cfg initGlobals = ([], some initGlobals) ∧
      (∀ P resolveInternal nets inputs tr d,
        tr ∈ (main false false resolveInternal cfg P nets inputs).2 →
        Event.sleep d ∈ tr → d = 300 * Second) ∧
      (∀ P g2 inputs tr d, (checkDomain cfg P initGlobals).2 = some g2 →
        tr ∈ (dnsUpdateLoop g2 inputs).2 → Event.sleep d ∈ tr → d = 300 * Second)) ∧
    (0 < cfg.DnsCheckSecond → cfg.DnsCheckSecond < 300 →
      mainCheckInterval cfg initGlobals
        = ([Event.log LogMsg.intervalRange, Event.exit 0], none) ∧
      ∀ optGetIp resolveInternal P nets inputs,
        main false optGetIp resolveInternal cfg P nets inputs
          = ([Event.log LogMsg.intervalRange, Event.exit 0], [])) ∧
    (300 ≤ cfg.DnsCheckSecond → cfg.DnsCheckSecond ≤ 9223372036 →
      (∃ g1, mainCheckInterval cfg initGlobals = ([], some g1) ∧
        g1.dnsCheckInterval = cfg.DnsCheckSecond * Second) ∧
      (∀ P resolveInternal nets inputs tr d,
        tr ∈ (main false false resolveInternal cfg P nets inputs).2 →
        Event.sleep d ∈ tr → d = cfg.DnsCheckSecond * Second) ∧
      (∀ P g1 g2 t1 inputs tr d, mainCheckInterval cfg initGlobals = (t1, some g1) →
        (checkDomain cfg P g1).2 = some g2 →
        tr ∈ (dnsUpdateLoop g2 inputs).2 → Event.sleep d ∈ tr →
        d = cfg.DnsCheckSecond * Second)) := by
  refine ⟨?_, ?_, ?_⟩
  · intro hn
    have h : mainCheckInterval cfg initGlobals = ([], some initGlobals) := by
      unfold mainCheckInterval
      simp [not_lt.2 hn]
    refine ⟨h, ?_, ?_⟩
    · intro P ri nets inputs tr d htr hd
      exact main_sleep cfg P ri nets inputs initGlobals [] h tr d htr hd
    · intro P g2 inputs tr d hc htr hd
      exact resolved_loop_sleep cfg P initGlobals g2 inputs tr d hc htr hd
  · intro h1 h2
    have h : mainCheckInterval cfg initGlobals
        = ([Event.log LogMsg.intervalRange, Event.exit 0], none) := by
      unfold mainCheckInterval
      simp [h1, h2]
    refine ⟨h, ?_⟩
    intro og ri P nets inputs
    unfold main
    simp [h]
  · intro h1 h2
    have hw : wrapInt64 (cfg.DnsCheckSecond * Second) = cfg.DnsCheckSecond * Second := by
      apply wrapInt64_of_range <;> (unfold Second; omega)
    have h : mainCheckInterval cfg initGlobals
        = ([], some { initGlobals with dnsCheckInterval := cfg.DnsCheckSecond * Second }) := by
      unfold mainCheckInterval
      have h3 : 0 < cfg.DnsCheckSecond := by omega
      have h4 : ¬ cfg.DnsCheckSecond < 300 := by omega
      simp [h3, h4, hw]
    refine ⟨⟨_, h, rfl⟩, ?_, ?_⟩
    · intro P ri nets inputs tr d htr hd
      exact main_sleep cfg P ri nets inputs _ [] h tr d htr hd
    · intro P g1 g2 t1 inputs tr d hm hc htr hd
      rw [h] at hm
      simp only [Prod.mk.injEq, Option.some.injEq] at hm
      have hg : g1.dnsCheckInterval = cfg.DnsCheckSecond * Second := by
        rw [← hm.2]
      rw [← hg]
      exact resolved_loop_sleep cfg P g1 g2 inputs tr d hc htr hd

/-- A witness of the amended C5 at the intervals 0, 120, 300 and 600. -/
theorem mainCheckInterval_cases_witness :
    mainCheckInterval (exampleCfg "home" 0) initGlobals = ([], some initGlobals) ∧
    mainCheckInterval (exampleCfg "home" 120) initGlobals
      = ([Event.log LogMsg.intervalRange, Event.exit 0], none) ∧
    (∃ g1, mainCheckInterval (exampleCfg "home" 300) initGlobals = ([], some g1) ∧
      g1.dnsCheckInterval = 300 * Second) ∧
    (∀ P resolveInternal nets inputs tr d,
      tr ∈ (main false false resolveInternal (exampleCfg "home" 600) P nets inputs).2 →
      Event.sleep d ∈ tr → d = 600 * Second) ∧
    (∀ P g1 g2 t1 inputs tr d,
      mainCheckInterval (exampleCfg "home" 600) initGlobals = (t1, some g1) →
      (checkDomain (exampleCfg "home" 600) P g1).2 = some g2 →
      tr ∈ (dnsUpdateLoop g2 inputs).2 → Event.sleep d ∈ tr → d = 600 * Second) :=
  ⟨((mainCheckInterval_cases (exampleCfg "home" 0)).1 (by decide)).1,
   ((mainCheckInterval_cases (exampleCfg "home" 120)).2.1 (by decide) (by decide)).1,
   ((mainCheckInterval_cases (exampleCfg "home" 300)).2.2 (by decide) (by decide)).1,
   ((mainCheckInterval_cases (exampleCfg "home" 600)).2.2 (by decide) (by decide)).2.1,
   ((mainCheckInterval_cases (exampleCfg "home" 600)).2.2 (by decide) (by decide)).2.2⟩

/-- The run of `main` with an interval of 600 seconds on the scenario of the
subdomains `home,nas`: the cycles that complete end with a sleep of 600 s. -/
theorem main_600_evaluated :
    (main false false false (exampleCfg "home,nas" 600) homeProvider []
        [okInput "1.2.3.4", okInput "1.2.3.4"]).2
      = [[Event.setLatestIp "1.2.3.4".toList,
          Event.log (LogMsg.localIp "1.2.3.4".toList),
          Event.updateIpRecord 7 "10".toList "home".toList "1.2.3.4".toList,
          Event.log (LogMsg.updateSuccess "home.example.com".toList),
          Event.sleep 600000000000],
         [Event.log LogMsg.ipNotChange, Event.sleep 600000000000]] := by
  decide

/-! ## External address discovery -/

/-- The claim C8 fails at a body that ends with a newline: the address
returned by `getExternalIp` and by `fetchIpAddr` keeps the newline. -/
theorem external_body_not_trimmed :
    getExternalIp (answering 200 "1.2.3.4\n") "http://ip.example/raw".toList
      = ("1.2.3.4\n".toList, none) ∧
    (fetchIpAddr false (exampleCfg "home" 0) [answering 200 "1.2.3.4\n"]).2
      = some "1.2.3.4\n".toList ∧
    TrimSpace "1.2.3.4\n".toList = "1.2.3.4".toList ∧
    "1.2.3.4\n".toList ≠ TrimSpace "1.2.3.4\n".toList := by
  decide

/-- The attempts of `fetchIpAddr` that fail in external mode are skipped, each
with its log line and a sleep of one second. -/
theorem fetchIpAddr_skips_errors (cfg : Settings) (pre : List Net) (rest : List Net)
    (hpre : ∀ n, n ∈ pre → ∃ err, n.httpGet cfg.IpFetchUrl = HttpGet.error err) :
    (fetchIpAddr false cfg (pre ++ rest)).2 = (fetchIpAddr false cfg rest).2 := by
  induction pre with
  | nil => rfl
  | cons n pre ih =>
    obtain ⟨err, he⟩ := hpre n (List.mem_cons_self _ _)
    have ih2 := ih (fun m hm => hpre m (List.mem_cons_of_mem _ hm))
    simp only [List.cons_append, fetchIpAddr, Bool.false_eq_true, if_false, getExternalIp, he]
    exact ih2

/-- Claim C8, amended. For every response obtained from the fetch URL,
`getExternalIp` returns the whole body as read, unchanged (not trimmed), with
no error; `fetchIpAddr` in external mode returns that body for the first
attempt that obtains a response, the attempts before it having failed. -/
theorem getExternalIp_returns_body (net : Net) (cfg : Settings) (status : Nat) (body : Str)
    (h : net.httpGet cfg.IpFetchUrl = HttpGet.response status body) :
    getExternalIp net cfg.IpFetchUrl = (body, none) ∧
    ∀ pre rest, (∀ n, n ∈ pre → ∃ err, n.httpGet cfg.IpFetchUrl = HttpGet.error err) →
      (fetchIpAddr false cfg (pre ++ net :: rest)).2 = some body := by
  have hg : getExternalIp net cfg.IpFetchUrl = (body, none) := by
    simp [getExternalIp, h]
  refine ⟨hg, ?_⟩
  intro pre rest hpre
  rw [fetchIpAddr_skips_errors cfg pre (net :: rest) hpre]
  simp [fetchIpAddr, hg]

/-- A witness of the amended C8: one failed attempt, then a response whose
body is surrounded by white space. -/
theorem getExternalIp_returns_body_witness :
    (answering 200 " 1.2.3.4\n").httpGet (exampleCfg "home" 0).IpFetchUrl
      = HttpGet.response 200 " 1.2.3.4\n".toList ∧
    (fetchIpAddr false (exampleCfg "home" 0)
        ([unreachable] ++ answering 200 " 1.2.3.4\n" :: [])).2
      = some " 1.2.3.4\n".toList :=
  ⟨rfl,
   (getExternalIp_returns_body (answering 200 " 1.2.3.4\n") (exampleCfg "home" 0) 200
      " 1.2.3.4\n".toList rfl).2 [unreachable] []
      (fun n hn => ⟨"timeout".toList, by rw [List.mem_singleton.1 hn]; rfl⟩)⟩

/-- The claim C9 fails at a response with status 500: `getExternalIp` returns
its body without error, and `fetchIpAddr` accepts it as the address at the
first attempt, without retry. -/
theorem non_success_response_accepted :
    getExternalIp (answering 500 "Internal Server Error") "http://ip.example/raw".toList
      = ("Internal Server Error".toList, none) ∧
    fetchIpAddr false (exampleCfg "home" 0) [answering 500 "Internal Server Error", unreachable]
      = ([], some "Internal Server Error".toList) := by
  decide

/-- Claim C9, amended. `getExternalIp` returns an error exactly when
`http.Get` fails, and then `fetchIpAddr` logs it, sleeps one second and goes on
to the next attempt; for every response obtained, whatever its status, it
returns the body without error and `fetchIpAddr` accepts it. -/
theorem getExternalIp_error_iff (net : Net) (cfg : Settings) :
    ((getExternalIp net cfg.IpFetchUrl).2 ≠ none ↔
      ∃ err, net.httpGet cfg.IpFetchUrl = HttpGet.error err) ∧
    (∀ err rest, net.httpGet cfg.IpFetchUrl = HttpGet.error err →
      fetchIpAddr false cfg (net :: rest)
        = (Event.log (LogMsg.fetchError err) :: Event.sleep Second ::
            (fetchIpAddr false cfg rest).1, (fetchIpAddr false cfg rest).2)) ∧
    (∀ status body rest, net.httpGet cfg.IpFetchUrl = HttpGet.response status body →
      (getExternalIp net cfg.IpFetchUrl).2 = none ∧
      fetchIpAddr false cfg (net :: rest) = ([], some body)) := by
  refine ⟨?_, ?_, ?_⟩
  · unfold getExternalIp
    cases hg : net.httpGet cfg.IpFetchUrl with
    | error err => simp
    | response status body => simp
  · intro err rest he
    simp [fetchIpAddr, getExternalIp, he]
  · intro status body rest hr
    simp [fetchIpAddr, getExternalIp, hr]

/-- A witness of the amended C9: a transport error is retried, a response with
status 404 is accepted. -/
theorem getExternalIp_error_iff_witness :
    fetchIpAddr false (exampleCfg "home" 0) (unreachable :: [answering 404 "not found"])
      = (Event.log (LogMsg.fetchError "timeout".toList) :: Event.sleep Second ::
          (fetchIpAddr false (exampleCfg "home" 0) [answering 404 "not found"]).1,
         (fetchIpAddr false (exampleCfg "home" 0) [answering 404 "not found"]).2) ∧
    fetchIpAddr false (exampleCfg "home" 0) (answering 404 "not found" :: [])
      = ([], some "not found".toList) :=
  ⟨(getExternalIp_error_iff unreachable (exampleCfg "home" 0)).2.1 "timeout".toList
      [answering 404 "not found"] rfl,
   ((getExternalIp_error_iff (answering 404 "not found") (exampleCfg "home" 0)).2.2 404
      "not found".toList [] rfl).2⟩

/-! ## What the update loop passes, in general -/

/-- The update calls of the loop over the resolved ids, when no call panics
and every index is in range: one call per id, in order, the call of the id at
position `i` carrying the raw piece at position `i` of `SubDomainArr`. -/
theorem updateTargets_calls (g : Globals) (inp : CycleInput)
    (hres : ∀ a b c d, inp.UpdateIpRecord a b c d ≠ UpdateResult.panic)
    (ids : List Str) (i : Nat) (hlen : i + ids.length ≤ g.SubDomainArr.length) :
    updateCalls (updateTargets g inp i ids).1
      = List.zipWith (fun subId label => Event.updateIpRecord g.DomainId subId label inp.localIp)
          ids (g.SubDomainArr.drop i) := by
  induction ids generalizing i with
  | nil => simp [updateTargets, updateCalls]
  | cons subId rest ih =>
    simp only [List.length_cons] at hlen
    have hi : i < g.SubDomainArr.length := by omega
    have hdrop : g.SubDomainArr.drop i = g.SubDomainArr[i] :: g.SubDomainArr.drop (i + 1) :=
      List.drop_eq_getElem_cons hi
    have ih2 := ih (i + 1) (by omega)
    unfold updateTargets
    rw [List.getElem?_eq_getElem hi, hdrop]
    simp only [List.zipWith_cons_cons]
    split
    · rename_i hp
      exact absurd hp (hres _ _ _ _)
    · simp only [updateCalls, List.filter_cons, isUpdate] at ih2 ⊢
      simpa using ih2
    · simp only [updateCalls, List.filter_cons, isUpdate] at ih2 ⊢
      simpa using ih2

/-- The update calls of a cycle whose address changed, when no call panics
and every index is in range: the ids of `SubDomainIdArr` in order, each with
the raw piece of `SubDomainArr` at the same position, and the new address. -/
theorem cycle_calls (g : Globals) (inp : CycleInput) (hne : inp.localIp ≠ g.latestIp)
    (hres : ∀ a b c d, inp.UpdateIpRecord a b c d ≠ UpdateResult.panic)
    (hlen : g.SubDomainIdArr.length ≤ g.SubDomainArr.length) :
    updateCalls (cycle g inp).2.1
      = List.zipWith (fun subId label => Event.updateIpRecord g.DomainId subId label inp.localIp)
          g.SubDomainIdArr g.SubDomainArr := by
  have h1 := updateTargets_no_panic { g with latestIp := inp.localIp } inp hres
    g.SubDomainIdArr 0 (by simpa using hlen)
  have h2 := updateTargets_calls { g with latestIp := inp.localIp } inp hres
    g.SubDomainIdArr 0 (by simpa using hlen)
  unfold cycle
  simp only [hne, if_false, h1, Bool.false_eq_true]
  simp only [updateCalls, List.filter_cons, isUpdate, List.filter_append] at h2 ⊢
  simpa using h2

theorem checkSubDomains_length (P : Provider) (domain : Str) (domainId : Int)
    (pieces ids : List Str) :
    (checkSubDomains P domain domainId pieces ids).2.length ≤ ids.length + pieces.length := by
  induction pieces generalizing ids with
  | nil => simp [checkSubDomains]
  | cons v rest ih =>
    unfold checkSubDomains
    simp only [List.length_cons]
    split
    · split
      · have := ih ids
        simp only
        omega
      · have := ih (ids ++ [(P.getSubDomain domainId (TrimSpace v)).1])
        simp only [List.length_append, List.length_singleton] at this
        simp only
        omega
    · have := ih ids
      omega

/-- After `checkDomain` from the initial globals, `SubDomainArr` is at least as
long as `SubDomainIdArr`: the index of the update loop is never out of range. -/
theorem checkDomain_lengths (cfg : Settings) (P : Provider) (g1 : Globals)
    (h : (checkDomain cfg P initGlobals).2 = some g1) :
    g1.SubDomainIdArr.length ≤ g1.SubDomainArr.length := by
  unfold checkDomain at h
  simp only at h
  split at h
  · cases h
  · split at h
    · cases h
    · simp only [Option.some.injEq] at h
      subst h
      have := checkSubDomains_length P (TrimSpace cfg.Domain)
        (P.GetDomain (TrimSpace cfg.Domain)) (Split cfg.SubDomains) initGlobals.SubDomainIdArr
      simpa [initGlobals] using this

/-! ## The model of the string functions -/

theorem Split_ne_nil (s : Str) : Split s ≠ [] := by
  cases s with
  | nil => simp [Split]
  | cons c cs =>
    unfold Split
    split
    · simp
    · split <;> simp

/-- The pieces of `Split` hold no comma, and joined with commas they give the
string back. -/
theorem Split_spec (s : Str) :
    joinComma (Split s) = s ∧ ∀ p, p ∈ Split s → ',' ∉ p := by
  induction s with
  | nil => simp [Split, joinComma]
  | cons c cs ih =>
    unfold Split
    by_cases hc : c = ','
    · simp only [hc, if_true]
      constructor
      · cases hs : Split cs with
        | nil => exact absurd hs (Split_ne_nil cs)
        | cons q r =>
          rw [hs] at ih
          simp [joinComma, ih.1]
      · intro p hp
        rcases List.mem_cons.1 hp with h | h
        · subst h
          simp
        · exact ih.2 p h
    · simp only [hc, if_false]
      cases hs : Split cs with
      | nil => exact absurd hs (Split_ne_nil cs)
      | cons q r =>
        rw [hs] at ih
        simp only
        constructor
        · cases r with
          | nil =>
            simp only [joinComma] at ih ⊢
            rw [ih.1]
          | cons q2 r2 =>
            simp only [joinComma] at ih ⊢
            rw [← ih.1]
            simp
        · intro p hp
          rcases List.mem_cons.1 hp with h | h
          · subst h
            have := ih.2 q (List.mem_cons_self _ _)
            simp only [List.mem_cons, not_or]
            exact ⟨fun h => hc h.symm, this⟩
          · exact ih.2 p (List.mem_cons_of_mem _ h)

/-- The result of `TrimSpace` is the string without a prefix and a suffix of
white space, and neither starts nor ends with white space. -/
theorem TrimSpace_spec (s : Str) :
    ∃ a b, s = a ++ TrimSpace s ++ b ∧
      (∀ c, c ∈ a → isSpace c = true) ∧ (∀ c, c ∈ b → isSpace c = true) ∧
      (∀ c, (TrimSpace s).head? = some c → isSpace c = false) ∧
      (∀ c, (TrimSpace s).getLast? = some c → isSpace c = false) := by
  have h1 : List.takeWhile isSpace s ++ List.dropWhile isSpace s = s :=
    List.takeWhile_append_dropWhile isSpace s
  have h2 : List.takeWhile isSpace (List.dropWhile isSpace s).reverse ++
      List.dropWhile isSpace (List.dropWhile isSpace s).reverse
        = (List.dropWhile isSpace s).reverse :=
    List.takeWhile_append_dropWhile isSpace _
  have h3 : List.dropWhile isSpace s
      = TrimSpace s ++ (List.takeWhile isSpace (List.dropWhile isSpace s).reverse).reverse := by
    have := congrArg List.reverse h2
    simp only [List.reverse_append, List.reverse_reverse] at this
    unfold TrimSpace
    exact this.symm
  refine ⟨List.takeWhile isSpace s,
    (List.takeWhile isSpace (List.dropWhile isSpace s).reverse).reverse, ?_, ?_, ?_, ?_, ?_⟩
  · rw [List.append_assoc, ← h3, h1]
  · intro c hc
    exact List.mem_takeWhile_imp hc
  · intro c hc
    exact List.mem_takeWhile_imp (List.mem_reverse.1 hc)
  · intro c hc
    have hh : (List.dropWhile isSpace s).head? = some c := by
      rw [h3]
      cases ht : TrimSpace s with
      | nil => rw [ht] at hc; cases hc
      | cons x xs =>
        rw [ht] at hc
        simpa using hc
    have := List.head?_dropWhile_not isSpace s
    rw [hh] at this
    simpa using this
  · intro c hc
    have hh : (List.dropWhile isSpace (List.dropWhile isSpace s).reverse).head? = some c := by
      unfold TrimSpace at hc
      rwa [List.getLast?_reverse] at hc
    have := List.head?_dropWhile_not isSpace (List.dropWhile isSpace s).reverse
    rw [hh] at this
    simpa using this

end GoDns
